import Mathlib

/-!
# jarget executable loader (`src/exeLoaders/loader.cpp`)

A shallow embedding of the loader and its platform helpers.

Conventions of the embedding

* `std::string` is a Lean `String`; one Lean character stands for one `char`.
  A `const char*` received from the platform (an element of `argv`, the result
  of `getenv`) is represented by the text in front of its terminator, and `none`
  is the null pointer.
* A raw buffer is a list of cells; a cell is `none` while it has not been
  written (its value is indeterminate) and `some v` afterwards.
* Every function is a value of `Prog`: the trace of platform calls it made (and
  of the entries into `getEnv` and `execProc`) and the way it ended.
* The preprocessor symbols that select the branches are the fields of `Build`;
  the operating system the process runs in is a `Sys`.
-/

namespace Loader

/-- The enumeration `SystemType` of the source. -/
inductive SystemType where
  | WindowsNT
  | Linux
  | MacOSX
  | FreeBSD
  | Unknown
  deriving DecidableEq, Repr

/-- The predefined preprocessor symbols the source tests. `apple` is the symbol
`__apple__`: `none` when it is not defined, `some v` when it is defined with the
value `v` (line 135 tests its value, lines 160, 173 and 236 whether it is
defined). -/
structure Build where
  linux : Bool
  apple : Option Int
  win32 : Bool
  win64 : Bool
  deriving DecidableEq, Repr

/-- A cell of a raw buffer: `none` is an indeterminate (never written) cell. -/
abbrev Cell (α : Type) := Option α

/-- A buffer of `wchar_t` or `char` code units. -/
abbrev Buf := List (Cell Nat)

/-- Calls that leave the program, and entries into `getEnv` and `execProc`. -/
inductive Event where
  | getEnv (var : String)
  | execProc (program : String) (args : List String) (console : Bool)
  | getenv (name : String)
  | readlink (path : String) (bufsiz : Nat)
  | execvp (file : String) (argv : List String)
  | MultiByteToWideChar (codePage : Int) (src : String) (srcLen : Int) (cch : Nat)
  | WideCharToMultiByte (codePage : Int) (src : List Nat) (srcLen : Int) (cb : Nat)
  | GetEnvironmentVariable (name : Option (List Nat)) (size : Nat)
  | GetModuleFileNameW (size : Nat)
  | CreateProcess (cmd : Option (List Nat)) (inheritHandles : Bool) (flags : Nat)
  | WaitForSingleObject
  | CloseHandle
  | cerr (text : String)
  deriving DecidableEq, Repr

/-- How a piece of the program ends. -/
inductive Outcome (α : Type) where
  /-- control returns to the caller with a value -/
  | ret (a : α)
  /-- `exit(status)` was called: the process is gone -/
  | exit (status : Int)
  /-- `execvp` succeeded: the process image was replaced -/
  | replaced
  /-- the C++ standard gives the execution no meaning -/
  | undefined
  /-- the preprocessor reached `#error`: there is no such program -/
  | noBuild
  deriving DecidableEq, Repr

/-- A run: what was called, in order, and how the run ended. -/
structure Prog (α : Type) where
  trace : List Event
  outcome : Outcome α
  deriving DecidableEq, Repr

/-- Sequencing: the continuation runs only when the first part returns. -/
def Prog.bind {α β : Type} (p : Prog α) (f : α → Prog β) : Prog β :=
  match p.outcome with
  | .ret a => ⟨p.trace ++ (f a).trace, (f a).outcome⟩
  | .exit s => ⟨p.trace, .exit s⟩
  | .replaced => ⟨p.trace, .replaced⟩
  | .undefined => ⟨p.trace, .undefined⟩
  | .noBuild => ⟨p.trace, .noBuild⟩

instance : Monad Prog where
  pure a := ⟨[], .ret a⟩
  bind := Prog.bind

/-- Record one call. -/
def emit (e : Event) : Prog Unit := ⟨[e], .ret ()⟩

/-- End the run with the given outcome. -/
def stop {α : Type} (o : Outcome α) : Prog α := ⟨[], o⟩

/-- The operating system around the process. -/
structure Sys where
  /-- `getenv`: `none` is the null pointer returned for an unset variable -/
  getenv : String → Option String
  /-- the target of a symbolic link; `none` when `readlink` returns -1 -/
  readlink : String → Option String
  /-- `execvp file argv`: `true` when the image is replaced, `false` when the
  call returns (with -1) -/
  execvp : String → List String → Bool
  /-- `MultiByteToWideChar codePage src srcLen cch`: the return value and the
  code units written to the destination -/
  MultiByteToWideChar : Int → String → Int → Nat → Nat × List Nat
  /-- `WideCharToMultiByte codePage src srcLen cb`: the return value and the
  bytes written to the destination -/
  WideCharToMultiByte : Int → List Nat → Int → Nat → Nat × List Nat
  /-- the value of an environment variable of the Windows environment block -/
  GetEnvironmentVariable : Option (List Nat) → Option (List Nat)
  /-- the module path `GetModuleFileNameW` writes; `none` when it fails -/
  GetModuleFileNameW : Option (List Nat)
  /-- whether `CreateProcess cmd inheritHandles flags` creates a process -/
  CreateProcess : Option (List Nat) → Bool → Nat → Bool

/-- Value of `PATH_MAX` in `<limits.h>` on Linux. -/
def PATH_MAX : Nat := 4096

/-- Value of `MAX_PATH` in `<windows.h>`. -/
def MAX_PATH : Nat := 260

/-- The constant `MAX_ENV` of `getEnv`. -/
def MAX_ENV : Nat := 1024

/-- Value of `CREATE_NO_WINDOW` in `<windows.h>`. -/
def CREATE_NO_WINDOW : Nat := 0x08000000

/-- Conversion of a `size_t` to `int` (two's complement, 32 bits). -/
def toInt32 (n : Nat) : Int :=
  if n % 2 ^ 32 < 2 ^ 31 then ((n % 2 ^ 32 : Nat) : Int) else ((n % 2 ^ 32 : Nat) : Int) - 2 ^ 32

/-- The text a reader of `s.c_str()` sees: the characters in front of the first
terminator. -/
def c_str (s : String) : String := ⟨s.data.takeWhile (fun c => c != '\x00')⟩

/-- Read a terminated string out of a buffer. `none`: the reader meets an
indeterminate cell or leaves the buffer before it finds the terminator. -/
def readCStr : Buf → Option (List Nat)
  | [] => none
  | none :: _ => none
  | some 0 :: _ => some []
  | some (n + 1) :: rest => (readCStr rest).map (fun l => (n + 1) :: l)

/-- Read a null-terminated array of string pointers (`none` inside a written
cell is the null pointer). -/
def readArgv : List (Cell (Option String)) → Option (List String)
  | [] => none
  | none :: _ => none
  | some none :: _ => some []
  | some (some s) :: rest => (readArgv rest).map (fun l => s :: l)

/-- A buffer after a platform routine wrote `written` at its start. -/
def overlay (written : List Nat) (buf : Buf) : Buf :=
  (written.take buf.length).map some ++ buf.drop written.length

/-- Narrow text made of the given bytes. -/
def bytesToString (bs : List Nat) : String := ⟨bs.map (fun b => Char.ofNat (b % 256))⟩

/-! ## Windows helpers (`namespace winUtils`, lines 44-128) -/

/-- `winUtils::CodePageToUnicode(src, codePage)` (lines 48-80). The default
argument 65001 of the source is passed explicitly by the callers here. -/
def winUtils.CodePageToUnicode (sys : Sys) (src : Option String) (codePage : Int) :
    Prog (Option Buf) :=
  match src with
  | none => pure none
  | some s =>
    let srcLen := toInt32 s.length
    if srcLen = 0 then
      pure (some [some 0])
    else do
      emit (.MultiByteToWideChar codePage s srcLen 0)
      let requiredSize := (sys.MultiByteToWideChar codePage s srcLen 0).1
      if requiredSize = 0 then
        pure none
      else do
        let w : Buf := (List.replicate (requiredSize + 1) none).set requiredSize (some 0)
        emit (.MultiByteToWideChar codePage s srcLen requiredSize)
        let r := sys.MultiByteToWideChar codePage s srcLen requiredSize
        let w := overlay (r.2.take requiredSize) w
        if r.1 = 0 then
          pure none
        else
          pure (some w)

/-- `winUtils::UnicodeToCodePage(src, codePage)` (lines 83-111). `wcslen` reads
the source buffer up to its terminator. -/
def winUtils.UnicodeToCodePage (sys : Sys) (src : Option Buf) (codePage : Int) :
    Prog (Option Buf) :=
  match src with
  | none => pure none
  | some b =>
    match readCStr b with
    | none => stop .undefined
    | some ws =>
      let srcLen := toInt32 ws.length
      if srcLen = 0 then
        pure (some [some 0])
      else do
        emit (.WideCharToMultiByte codePage ws srcLen 0)
        let requiredSize := (sys.WideCharToMultiByte codePage ws srcLen 0).1
        if requiredSize = 0 then
          pure none
        else do
          let x : Buf := (List.replicate (requiredSize + 1) none).set requiredSize (some 0)
          emit (.WideCharToMultiByte codePage ws srcLen requiredSize)
          let r := sys.WideCharToMultiByte codePage ws srcLen requiredSize
          let x := overlay (r.2.take requiredSize) x
          if r.1 = 0 then
            pure none
          else
            pure (some x)

/-- `winUtils::stringToLPWSTR(text)` (lines 114-119). -/
def winUtils.stringToLPWSTR (sys : Sys) (text : String) : Prog (Option Buf) :=
  winUtils.CodePageToUnicode sys (some (c_str text)) 1252

/-- `winUtils::lpwstrToString(wtext)` (lines 121-126). `string(str)` reads the
converted buffer as a terminated string; a null `str` has no defined meaning. -/
def winUtils.lpwstrToString (sys : Sys) (wtext : Option Buf) : Prog String := do
  let str ← winUtils.UnicodeToCodePage sys wtext 1252
  match str with
  | none => stop .undefined
  | some buf =>
    match readCStr buf with
    | none => stop .undefined
    | some bytes => pure (bytesToString bytes)

/-! ## Cross-platform code (lines 134-355) -/

/-- The string a platform routine reads through a wide pointer: `some none` for
the null pointer, `none` when the read meets an indeterminate cell. -/
def widePtr : Option Buf → Option (Option (List Nat))
  | none => some none
  | some buf => (readCStr buf).map some

/-- The stack buffer `env` of `getEnv` after `GetEnvironmentVariable(varp, env,
MAX_ENV)`: the value and its terminator when the variable is set and fits, the
untouched buffer otherwise. -/
def envBuffer (value : Option (List Nat)) : Buf :=
  match value with
  | some v =>
    if v.length < MAX_ENV then
      v.map some ++ [some 0] ++ List.replicate (MAX_ENV - v.length - 1) none
    else
      List.replicate MAX_ENV none
  | none => List.replicate MAX_ENV none

/-- `getEnv(var)` (lines 134-149). -/
def getEnv (b : Build) (sys : Sys) (var : String) : Prog String :=
  if b.linux || b.apple.getD 0 != 0 then do
    emit (.getEnv var)
    emit (.getenv (c_str var))
    match sys.getenv (c_str var) with
    | none => stop .undefined
    | some v => pure v
  else if b.win32 then do
    emit (.getEnv var)
    let varp ← winUtils.stringToLPWSTR sys var
    match widePtr varp with
    | none => stop .undefined
    | some name => do
      emit (.GetEnvironmentVariable name 0)
      emit (.GetEnvironmentVariable name MAX_ENV)
      let env := envBuffer (sys.GetEnvironmentVariable name)
      winUtils.lpwstrToString sys (some env)
  else
    stop .noBuild

/-- `getSystemType()` (lines 172-182). -/
def getSystemType (b : Build) : SystemType :=
  if b.apple.isSome then SystemType.MacOSX
  else if b.linux then SystemType.Linux
  else if b.win32 || b.win64 then SystemType.WindowsNT
  else SystemType.Unknown

/-- `getHomeDir()` (lines 198-203). -/
def getHomeDir (b : Build) (sys : Sys) : Prog String :=
  if getSystemType b = SystemType.WindowsNT then
    getEnv b sys "USERPROFILE"
  else
    getEnv b sys "HOME"

/-- `getExecutablePath()` (lines 208-227). On Linux `readlink` writes at most
`PATH_MAX-1` characters of the link target. On Windows the module path is cut
to the buffer, read up to its terminator and narrowed unit by unit. -/
def getExecutablePath (b : Build) (sys : Sys) : Prog String :=
  if b.linux then do
    emit (.readlink "/proc/self/exe" (PATH_MAX - 1))
    match sys.readlink "/proc/self/exe" with
    | some target => pure (c_str ⟨target.data.take (PATH_MAX - 1)⟩)
    | none => pure ""
  else if b.win32 then do
    emit (.GetModuleFileNameW MAX_PATH)
    match sys.GetModuleFileNameW with
    | none => stop .undefined
    | some w =>
      pure (bytesToString ((w.take (MAX_PATH - 1)).takeWhile (fun u => u != 0)))
  else
    stop .noBuild

/-- The array `argsarr` of `execProc` when it is handed to `execvp` (lines
237-242): `args.size()+2` fresh cells, cell 0 set, the loop over `i`, then the
terminating null pointer. -/
def argsarr (args : List String) : List (Cell (Option String)) :=
  let a0 : List (Cell (Option String)) := List.replicate (args.length + 2) none
  let a1 := a0.set 0 (some (some "program"))
  let a2 := (List.range args.length).foldl
    (fun arr i => arr.set (i + 1) (some (some (c_str (args.getD i ""))))) a1
  a2.set (args.length + 1) (some none)

/-- The string `command` of `execProc` after its loop (lines 252-256). -/
def commandLine (program : String) (args : List String) : String :=
  args.foldl (fun command arg => command ++ " " ++ arg) program

/-- `execProc(program, args, console)` (lines 235-325). The `int` counter of the
Unix loop overflows when `args` has 2^31 elements or more. When `CreateProcess`
fails, `pi` stays indeterminate and is read by `WaitForSingleObject`. -/
def execProc (b : Build) (sys : Sys) (program : String) (args : List String)
    (console : Bool) : Prog Unit :=
  if b.linux || b.apple.isSome then do
    emit (.execProc program args console)
    if 2 ^ 31 ≤ args.length then
      stop .undefined
    else
      match readArgv (argsarr args) with
      | none => stop .undefined
      | some av => do
        emit (.execvp (c_str program) av)
        if sys.execvp (c_str program) av then
          stop .replaced
        else
          pure ()
  else if b.win32 then do
    emit (.execProc program args console)
    let command := commandLine program args
    let first ← winUtils.stringToLPWSTR sys command
    let cmdwstr ← if console then winUtils.stringToLPWSTR sys command else pure first
    match widePtr cmdwstr with
    | none => stop .undefined
    | some cmd => do
      let inherit := console
      let flags := if console then 0 else CREATE_NO_WINDOW
      emit (.CreateProcess cmd inherit flags)
      if sys.CreateProcess cmd inherit flags then do
        emit .WaitForSingleObject
        emit .CloseHandle
        emit .CloseHandle
      else
        stop .undefined
  else
    stop .noBuild

/-- The file passes the preprocessor: none of its three `#error` directives
(line 147 in `getEnv`, line 225 in `getExecutablePath`, line 323 in `execProc`)
is reached. -/
def Build.compiles (b : Build) : Bool :=
  (b.linux || b.apple.getD 0 != 0 || b.win32) &&
  (b.linux || b.win32) &&
  (b.linux || b.apple.isSome || b.win32)

/-- `xdgOpen(file)` (lines 328-340). The function has no preprocessor branch of
its own: it exists in the builds in which the file compiles. The default
argument `console = true` of `execProc` is passed explicitly. -/
def xdgOpen (b : Build) (sys : Sys) (file : String) : Prog Unit :=
  if b.compiles then
    let os := getSystemType b
    if os = SystemType.Linux || os = SystemType.FreeBSD then
      execProc b sys "xdg-open" ["\x27" ++ file ++ "\x27"] true
    else if os = SystemType.MacOSX then
      execProc b sys "open" [file] true
    else if os = SystemType.WindowsNT then
      execProc b sys "cmd" ["/C", "start", "", file] true
    else do
      emit (.cerr "Error: unknown operating system")
      stop (.exit 1)
  else
    stop .noBuild

/-- The vector `pargs` of `main` after the loop `for (i = 1; i < argn; i++)`
(lines 344-350), `argn` being the length of `argv`. -/
def pargs (path : String) (argv : List String) : List String :=
  ((List.range argv.length).drop 1).foldl
    (fun acc i => acc ++ [argv.getD i ""]) (([] ++ ["-jar"]) ++ [path])

/-- `main(argn, argv)` (lines 342-355); the value returned is the exit status. -/
def main (b : Build) (sys : Sys) (argv : List String) : Prog Int := do
  let path ← getExecutablePath b sys
  execProc b sys "java" (pargs path argv) true
  pure 0

/-! ## Observations on traces -/

/-- The entries into `execProc` recorded in a trace, in order: program,
argument vector and console flag of each call. -/
def launches : List Event → List (String × List String × Bool)
  | [] => []
  | .execProc program args console :: t => (program, args, console) :: launches t
  | _ :: t => launches t

/-- The entries into `getEnv` recorded in a trace, in order: the variable name
of each call. -/
def lookups : List Event → List String
  | [] => []
  | .getEnv var :: t => var :: lookups t
  | _ :: t => lookups t

/-- Events that are neither an entry into `execProc` nor one into `getEnv`. -/
def Event.isPlatformCall : Event → Bool
  | .execProc _ _ _ => false
  | .getEnv _ => false
  | _ => true

/-- The platform routine reports a failure for the narrow text `src`: it returns
0 on the size query or on the conversion (the two calls of lines 58-72). -/
def mbFails (sys : Sys) (codePage : Int) (src : String) : Prop :=
  (sys.MultiByteToWideChar codePage src (toInt32 src.length) 0).1 = 0 ∨
  (sys.MultiByteToWideChar codePage src (toInt32 src.length)
    (sys.MultiByteToWideChar codePage src (toInt32 src.length) 0).1).1 = 0

/-- The platform routine reports a failure for the wide text `src`: it returns
0 on the size query or on the conversion (the two calls of lines 92-103). -/
def wcFails (sys : Sys) (codePage : Int) (src : List Nat) : Prop :=
  (sys.WideCharToMultiByte codePage src (toInt32 src.length) 0).1 = 0 ∨
  (sys.WideCharToMultiByte codePage src (toInt32 src.length)
    (sys.WideCharToMultiByte codePage src (toInt32 src.length) 0).1).1 = 0

/-! ## Concrete builds and systems used in the examples -/

/-- A build for Linux: only `__linux__` is defined. -/
def linuxBuild : Build := ⟨true, none, false, false⟩

/-- A build for Windows: `_WIN32` is defined. -/
def windowsBuild : Build := ⟨false, none, true, false⟩

/-- No platform symbol is defined. -/
def bareBuild : Build := ⟨false, none, false, false⟩

/-- A system in which every lookup and every platform call fails. -/
def failingSys : Sys where
  getenv := fun _ => none
  readlink := fun _ => none
  execvp := fun _ _ => false
  MultiByteToWideChar := fun _ _ _ _ => (0, [])
  WideCharToMultiByte := fun _ _ _ _ => (0, [])
  GetEnvironmentVariable := fun _ => none
  GetModuleFileNameW := none
  CreateProcess := fun _ _ _ => false

/-- A system in which the loader sits at `/opt/app/app.bin`, `HOME` is the only
variable set, `execvp` replaces the image and the conversions copy code units. -/
def workingSys : Sys where
  getenv := fun name => if name = "HOME" then some "/home/user" else none
  readlink := fun p => if p = "/proc/self/exe" then some "/opt/app/app.bin" else none
  execvp := fun _ _ => true
  MultiByteToWideChar := fun _ s _ cch =>
    (s.length, if cch = 0 then [] else s.data.map Char.toNat)
  WideCharToMultiByte := fun _ ws _ cb => (ws.length, if cb = 0 then [] else ws)
  GetEnvironmentVariable := fun _ => none
  GetModuleFileNameW := some ("C:\\app\\app.exe".data.map Char.toNat)
  CreateProcess := fun _ _ _ => true

/-- The system `workingSys` in which `MultiByteToWideChar` alone fails. -/
def mbOnlySys : Sys := { workingSys with MultiByteToWideChar := fun _ _ _ _ => (0, []) }

/-- The system `workingSys` in which `WideCharToMultiByte` alone fails, on the
conversion itself and not on the size query. -/
def wcOnlySys : Sys :=
  { workingSys with
    WideCharToMultiByte := fun _ ws _ cb => if cb = 0 then (ws.length, []) else (0, []) }

/-- The system `workingSys` without a `java` that can be executed. -/
def noJavaSys : Sys := { workingSys with execvp := fun _ _ => false }

/-! ## Sequencing lemmas -/

theorem bind_eq {α β : Type} (p : Prog α) (f : α → Prog β) : (p >>= f) = Prog.bind p f := rfl

theorem pure_eq {α : Type} (a : α) : (pure a : Prog α) = ⟨[], .ret a⟩ := rfl

theorem bind_emit {β : Type} (e : Event) (f : Unit → Prog β) :
    Prog.bind (emit e) f = ⟨e :: (f ()).trace, (f ()).outcome⟩ := rfl

theorem bind_trace {α β : Type} (p : Prog α) (f : α → Prog β) :
    (Prog.bind p f).trace =
      p.trace ++ (match p.outcome with | .ret a => (f a).trace | _ => []) := by
  unfold Prog.bind
  cases p.outcome <;> simp

theorem bind_of_ret {α β : Type} (p : Prog α) (f : α → Prog β) (a : α)
    (h : p.outcome = .ret a) :
    Prog.bind p f = ⟨p.trace ++ (f a).trace, (f a).outcome⟩ := by
  unfold Prog.bind
  rw [h]

/-! ## Traces of platform calls hold no entry -/

theorem launches_append (s t : List Event) : launches (s ++ t) = launches s ++ launches t := by
  induction s with
  | nil => rfl
  | cons e s ih => cases e <;> simp [launches, ih]

theorem launches_platform (t : List Event) (h : ∀ e ∈ t, e.isPlatformCall = true) :
    launches t = [] := by
  induction t with
  | nil => rfl
  | cons e t ih =>
    have he := h e (by simp)
    have ht := ih (fun x hx => h x (by simp [hx]))
    cases e <;> simp_all [launches, Event.isPlatformCall]

theorem lookups_platform (t : List Event) (h : ∀ e ∈ t, e.isPlatformCall = true) :
    lookups t = [] := by
  induction t with
  | nil => rfl
  | cons e t ih =>
    have he := h e (by simp)
    have ht := ih (fun x hx => h x (by simp [hx]))
    cases e <;> simp_all [lookups, Event.isPlatformCall]

theorem platform_CodePageToUnicode (sys : Sys) (src : Option String) (cp : Int) :
    ∀ e ∈ (winUtils.CodePageToUnicode sys src cp).trace, e.isPlatformCall = true := by
  unfold winUtils.CodePageToUnicode
  cases src with
  | none => simp [pure_eq]
  | some s =>
    simp only [bind_eq, bind_emit, pure_eq]
    split_ifs <;> simp [Event.isPlatformCall]

theorem platform_UnicodeToCodePage (sys : Sys) (src : Option Buf) (cp : Int) :
    ∀ e ∈ (winUtils.UnicodeToCodePage sys src cp).trace, e.isPlatformCall = true := by
  unfold winUtils.UnicodeToCodePage
  cases src with
  | none => simp [pure_eq]
  | some b =>
    simp only [bind_eq, bind_emit, pure_eq, stop]
    split
    · simp
    · split_ifs <;> simp [Event.isPlatformCall]

theorem platform_lpwstrToString (sys : Sys) (wtext : Option Buf) :
    ∀ e ∈ (winUtils.lpwstrToString sys wtext).trace, e.isPlatformCall = true := by
  unfold winUtils.lpwstrToString
  intro e he
  rw [bind_eq, bind_trace] at he
  rcases List.mem_append.mp he with h | h
  · exact platform_UnicodeToCodePage sys wtext 1252 e h
  · revert h
    cases (winUtils.UnicodeToCodePage sys wtext 1252).outcome with
    | ret a =>
      simp only [stop, pure_eq]
      split
      · simp
      · split <;> simp
    | _ => simp

/-! ## The loops of `main` and `execProc` -/

theorem foldl_push {α β : Type} (f : α → β) (is : List α) (init : List β) :
    is.foldl (fun acc i => acc ++ [f i]) init = init ++ is.map f := by
  induction is generalizing init with
  | nil => simp
  | cons i is ih => simp [ih]

theorem map_getD_range (l : List String) :
    (List.range l.length).map (fun i => l.getD i "") = l := by
  apply List.ext_getElem
  · simp
  · intro n h1 h2
    simp at h1
    simp [List.getD, h1]

theorem pargs_eq (path : String) (argv : List String) :
    pargs path argv = "-jar" :: path :: argv.drop 1 := by
  unfold pargs
  rw [foldl_push, List.map_drop, map_getD_range]
  rfl

theorem foldl_set_length {α : Type} (g : Nat → α) (is : List Nat) (arr : List α) :
    (is.foldl (fun a i => a.set (i + 1) (g i)) arr).length = arr.length := by
  induction is generalizing arr with
  | nil => rfl
  | cons i is ih => simp [ih]

theorem foldl_set_getElem? {α : Type} (g : Nat → α) (n : Nat) (arr : List α) (j : Nat) :
    ((List.range n).foldl (fun a i => a.set (i + 1) (g i)) arr)[j]? =
      if 1 ≤ j ∧ j ≤ n then (arr[j]?).map (fun _ => g (j - 1)) else arr[j]? := by
  induction n with
  | zero =>
    have : ¬ (1 ≤ j ∧ j ≤ 0) := by omega
    rw [if_neg this]
    rfl
  | succ n ih =>
    rw [List.range_succ, List.foldl_append]
    simp only [List.foldl_cons, List.foldl_nil]
    rw [List.getElem?_set, foldl_set_length]
    by_cases hj : n + 1 = j
    · subst hj
      by_cases hl : n + 1 < arr.length
      · simp [hl]
      · have hn : arr[n + 1]? = none := List.getElem?_eq_none (by omega)
        simp [hl, hn]
    · simp only [hj, if_false, ih]
      by_cases h1 : 1 ≤ j ∧ j ≤ n
      · have : 1 ≤ j ∧ j ≤ n + 1 := by omega
        simp [h1, this]
      · have : ¬ (1 ≤ j ∧ j ≤ n + 1) := by omega
        simp [h1, this]

theorem argsarr_eq (args : List String) :
    argsarr args =
      some (some "program") :: args.map (fun a => some (some (c_str a))) ++ [some none] := by
  apply List.ext_getElem?
  intro j
  unfold argsarr
  simp only [List.getElem?_set, foldl_set_getElem?, foldl_set_length, List.length_set,
    List.length_replicate]
  rcases Nat.lt_trichotomy j (args.length + 1) with h | h | h
  · cases j with
    | zero => simp
    | succ k =>
      have hk : k < args.length := by omega
      have h1 : ¬ (args.length + 1 = k + 1) := by omega
      have h2 : (1 ≤ k + 1 ∧ k + 1 ≤ args.length) := by omega
      simp [h1, h2, hk, List.getElem?_append_left, List.getD, List.getElem?_replicate]
      omega
  · subst h
    simp [List.getElem?_append_right]
  · have h1 : ¬ (args.length + 1 = j) := by omega
    have h2 : ¬ (1 ≤ j ∧ j ≤ args.length) := by omega
    have h3 : ¬ (0 = j) := by omega
    cases j with
    | zero => omega
    | succ k =>
      have h4 : ¬ (k + 1 ≤ args.length) := by omega
      have h5 : ¬ (k < args.length + 1) := by omega
      have h6 : (List.map (fun a => some (some (c_str a))) args ++ [some none])[k]? = none :=
        List.getElem?_eq_none (by simp; omega)
      simp [h1, h2, h4, h5, h6, List.getElem?_replicate]

theorem readArgv_cells (l : List String) :
    readArgv (l.map (fun a => some (some a)) ++ [some none]) = some l := by
  induction l with
  | nil => rfl
  | cons a l ih => simp [readArgv, ih]

theorem readArgv_argsarr (args : List String) :
    readArgv (argsarr args) = some ("program" :: args.map c_str) := by
  rw [argsarr_eq]
  have := readArgv_cells ("program" :: args.map c_str)
  simpa using this

/-! ## What `execProc` and `getExecutablePath` record -/

theorem platform_bind {α β : Type} (p : Prog α) (f : α → Prog β)
    (hp : ∀ e ∈ p.trace, e.isPlatformCall = true)
    (hf : ∀ a, ∀ e ∈ (f a).trace, e.isPlatformCall = true) :
    ∀ e ∈ (Prog.bind p f).trace, e.isPlatformCall = true := by
  intro e he
  rw [bind_trace] at he
  rcases List.mem_append.mp he with h | h
  · exact hp e h
  · revert h
    cases p.outcome with
    | ret a => exact hf a e
    | _ => simp

theorem execProc_unix (b : Build) (sys : Sys) (program : String) (args : List String)
    (console : Bool) (hb : (b.linux || b.apple.isSome) = true) (hlen : args.length < 2 ^ 31) :
    execProc b sys program args console =
      ⟨[.execProc program args console, .execvp (c_str program) ("program" :: args.map c_str)],
        if sys.execvp (c_str program) ("program" :: args.map c_str) then .replaced
        else .ret ()⟩ := by
  have hl : ¬ (2 ^ 31 ≤ args.length) := by omega
  unfold execProc
  rw [if_pos hb]
  simp only [bind_eq, bind_emit, if_neg hl, readArgv_argsarr, pure_eq, stop]
  split_ifs <;> rfl

theorem launches_execProc (b : Build) (sys : Sys) (program : String) (args : List String)
    (console : Bool) (hb : (b.linux || b.apple.isSome || b.win32) = true) :
    launches (execProc b sys program args console).trace = [(program, args, console)] := by
  unfold execProc
  by_cases hu : (b.linux || b.apple.isSome) = true
  · rw [if_pos hu]
    simp only [bind_eq, bind_emit, pure_eq, stop]
    split_ifs
    · rfl
    · split
      · rfl
      · split_ifs <;> rfl
  · have hw : b.win32 = true := by
      simp only [Bool.or_eq_true] at hb hu
      tauto
    rw [if_neg hu, if_pos hw, bind_eq, bind_emit]
    simp only [launches, List.cons.injEq, true_and]
    apply launches_platform
    simp only [bind_eq]
    apply platform_bind
    · exact platform_CodePageToUnicode sys _ 1252
    · intro first
      have hk : ∀ (flags : Nat) (cmdwstr : Option Buf), ∀ e ∈ (match widePtr cmdwstr with
          | none => (stop Outcome.undefined : Prog Unit)
          | some cmd =>
            (emit (Event.CreateProcess cmd console flags)).bind fun _ =>
              if sys.CreateProcess cmd console flags = true then
                (emit Event.WaitForSingleObject).bind fun _ =>
                  (emit Event.CloseHandle).bind fun _ => emit Event.CloseHandle
              else stop Outcome.undefined).trace, e.isPlatformCall = true := by
        intro flags cmdwstr
        split
        · simp [stop]
        · simp only [bind_emit]
          split_ifs <;> simp [stop, emit, Event.isPlatformCall]
      split_ifs
      · exact platform_bind _ _ (platform_CodePageToUnicode sys _ 1252) (hk 0)
      · exact platform_bind _ _ (by simp [pure_eq]) (hk CREATE_NO_WINDOW)

theorem launches_getExecutablePath (b : Build) (sys : Sys) :
    launches (getExecutablePath b sys).trace = [] := by
  unfold getExecutablePath
  simp only [bind_eq, bind_emit, pure_eq, stop]
  split_ifs
  · split <;> rfl
  · split <;> rfl
  · rfl

/-! ## The entry point -/

theorem c_str_java : c_str "java" = "java" := by decide

theorem getExecutablePath_linux (b : Build) (sys : Sys) (hb : b.linux = true) :
    getExecutablePath b sys =
      ⟨[.readlink "/proc/self/exe" (PATH_MAX - 1)],
        .ret (match sys.readlink "/proc/self/exe" with
          | some target => c_str ⟨target.data.take (PATH_MAX - 1)⟩
          | none => "")⟩ := by
  unfold getExecutablePath
  rw [if_pos hb, bind_eq, bind_emit]
  split <;> rfl

theorem main_of_path (b : Build) (sys : Sys) (argv : List String) (p : String)
    (hp : (getExecutablePath b sys).outcome = .ret p) :
    main b sys argv =
      ⟨(getExecutablePath b sys).trace ++
          (execProc b sys "java" ("-jar" :: p :: argv.drop 1) true).trace,
        match (execProc b sys "java" ("-jar" :: p :: argv.drop 1) true).outcome with
        | .ret _ => .ret 0
        | .exit s => .exit s
        | .replaced => .replaced
        | .undefined => .undefined
        | .noBuild => .noBuild⟩ := by
  unfold main
  rw [bind_eq, bind_of_ret _ _ p hp, pargs_eq, bind_eq]
  unfold Prog.bind
  cases (execProc b sys "java" ("-jar" :: p :: argv.drop 1) true).outcome <;> simp [pure_eq]

theorem built_of_path (b : Build) (sys : Sys) (p : String)
    (hp : (getExecutablePath b sys).outcome = .ret p) :
    (b.linux || b.apple.isSome || b.win32) = true := by
  by_cases h1 : b.linux = true
  · simp [h1]
  · by_cases h2 : b.win32 = true
    · simp [h2]
    · unfold getExecutablePath at hp
      rw [if_neg h1, if_neg h2] at hp
      simp [stop] at hp

/-- C1: whenever `getExecutablePath` resolves to a path `p`, `main` enters
`execProc` exactly once, for the program `java`, and the argument vector of
that call is `-jar`, then `p`, then `argv[1]`, ..., `argv[n-1]` unchanged and
in their order. -/
theorem main_launches_java (b : Build) (sys : Sys) (argv : List String) (p : String)
    (hp : (getExecutablePath b sys).outcome = .ret p) :
    launches (main b sys argv).trace = [("java", "-jar" :: p :: argv.drop 1, true)] := by
  rw [main_of_path b sys argv p hp, launches_append, launches_getExecutablePath,
    launches_execProc b sys _ _ _ (built_of_path b sys p hp)]
  rfl

/-- C1, at the example of the specification: the caller arguments `--flag`,
`value` and the self-path `/opt/app/app.bin`. -/
theorem main_launches_java_witness :
    (getExecutablePath linuxBuild workingSys).outcome = .ret "/opt/app/app.bin" ∧
    launches (main linuxBuild workingSys ["app", "--flag", "value"]).trace =
      [("java", ["-jar", "/opt/app/app.bin", "--flag", "value"], true)] :=
  ⟨by decide, main_launches_java linuxBuild workingSys ["app", "--flag", "value"]
    "/opt/app/app.bin" (by decide)⟩

/-- C2: in the Unix branch, for the program `java` and the arguments
`-version`, the array handed to `execvp` is `program`, `-version`: its entry 0
is the literal text `program`, not the name `java` of the program being
launched. -/
theorem execProc_entry_zero_is_literal :
    (execProc linuxBuild noJavaSys "java" ["-version"] true).trace =
      [.execProc "java" ["-version"] true, .execvp "java" ["program", "-version"]] ∧
    "program" ≠ "java" := by
  decide

/-- C4, as the code has it: on a Linux build, when `execvp` returns instead of
replacing the process, `execProc` returns nothing to `main` and `main` ends
with the exit status 0. -/
theorem main_exec_failure_status (b : Build) (sys : Sys) (argv : List String) (p : String)
    (hb : b.linux = true) (hlen : argv.length + 1 < 2 ^ 31)
    (hp : (getExecutablePath b sys).outcome = .ret p)
    (hfail : sys.execvp "java" ("program" :: "-jar" :: c_str p :: (argv.drop 1).map c_str)
      = false) :
    (main b sys argv).outcome = .ret 0 := by
  have hu : (b.linux || b.apple.isSome) = true := by simp [hb]
  have hl : ("-jar" :: p :: argv.drop 1).length < 2 ^ 31 := by
    simp only [List.length_cons, List.length_drop]
    omega
  have hj : c_str "-jar" = "-jar" := by decide
  rw [main_of_path b sys argv p hp, execProc_unix b sys _ _ _ hu hl]
  simp only [List.map_cons, c_str_java, hj, hfail]
  rfl

/-- C4, on a system where `java` cannot be executed. -/
theorem main_exec_failure_status_witness :
    linuxBuild.linux = true ∧
    noJavaSys.execvp "java" ["program", "-jar", "/opt/app/app.bin", "--flag"] = false ∧
    (main linuxBuild noJavaSys ["app", "--flag"]).outcome = .ret 0 :=
  ⟨rfl, rfl, main_exec_failure_status linuxBuild noJavaSys ["app", "--flag"]
    "/opt/app/app.bin" rfl (by decide) (by decide) rfl⟩

/-- C4 as stated fails: `execvp` is called for `java`, it returns, and the
exit status of `main` is 0. -/
theorem main_exec_failure_exits_zero :
    main linuxBuild noJavaSys ["app"] =
      ⟨[.readlink "/proc/self/exe" 4095,
        .execProc "java" ["-jar", "/opt/app/app.bin"] true,
        .execvp "java" ["program", "-jar", "/opt/app/app.bin"]], .ret 0⟩ ∧
    noJavaSys.execvp "java" ["program", "-jar", "/opt/app/app.bin"] = false := by
  decide

/-- C5, as the code has it: on a Linux build, when `readlink` fails,
`getExecutablePath` returns the empty string and `main` still enters
`execProc`, with the empty string as the second element of the vector. -/
theorem main_unresolved_path (b : Build) (sys : Sys) (argv : List String)
    (hb : b.linux = true) (hfail : sys.readlink "/proc/self/exe" = none) :
    (getExecutablePath b sys).outcome = .ret "" ∧
    launches (main b sys argv).trace = [("java", "-jar" :: "" :: argv.drop 1, true)] := by
  have hp : (getExecutablePath b sys).outcome = .ret "" := by
    rw [getExecutablePath_linux b sys hb, hfail]
  refine ⟨hp, ?_⟩
  rw [main_of_path b sys argv "" hp, launches_append, launches_getExecutablePath,
    launches_execProc b sys _ _ _ (built_of_path b sys "" hp)]
  rfl

/-- C5, on a system whose `readlink` fails. -/
theorem main_unresolved_path_witness :
    linuxBuild.linux = true ∧ failingSys.readlink "/proc/self/exe" = none ∧
    (getExecutablePath linuxBuild failingSys).outcome = .ret "" ∧
    launches (main linuxBuild failingSys ["app", "x"]).trace =
      [("java", ["-jar", "", "x"], true)] :=
  ⟨rfl, rfl, main_unresolved_path linuxBuild failingSys ["app", "x"] rfl rfl⟩

/-- C5 as stated fails: after a failed `readlink` the result is a string, the
empty one, and `execProc` is entered with it as the second element. -/
theorem main_passes_empty_path :
    getExecutablePath linuxBuild failingSys = ⟨[.readlink "/proc/self/exe" 4095], .ret ""⟩ ∧
    launches (main linuxBuild failingSys ["app", "x"]).trace =
      [("java", ["-jar", "", "x"], true)] := by
  decide

/-! ## Environment lookups -/

theorem getEnv_unix (b : Build) (sys : Sys) (var : String)
    (hb : (b.linux || b.apple.getD 0 != 0) = true) :
    getEnv b sys var =
      ⟨[.getEnv var, .getenv (c_str var)],
        match sys.getenv (c_str var) with
        | none => .undefined
        | some v => .ret v⟩ := by
  unfold getEnv
  rw [if_pos hb]
  simp only [bind_eq, bind_emit]
  split <;> rfl

theorem lookups_getEnv (b : Build) (sys : Sys) (var : String)
    (hb : (getEnv b sys var).outcome ≠ .noBuild) :
    lookups (getEnv b sys var).trace = [var] := by
  by_cases hu : (b.linux || b.apple.getD 0 != 0) = true
  · rw [getEnv_unix b sys var hu]
    rfl
  · by_cases hw : b.win32 = true
    · unfold getEnv
      rw [if_neg hu, if_pos hw, bind_eq, bind_emit]
      simp only [lookups, List.cons.injEq, true_and]
      apply lookups_platform
      simp only [bind_eq]
      apply platform_bind
      · exact platform_CodePageToUnicode sys _ 1252
      · intro varp
        split
        · simp [stop]
        · simp only [bind_emit]
          intro e he
          simp only [List.mem_cons] at he
          rcases he with h | h | h
          · subst h; rfl
          · subst h; rfl
          · exact platform_lpwstrToString sys _ e h
    · exfalso
      apply hb
      unfold getEnv
      rw [if_neg hu, if_neg hw]
      rfl

/-- C3: on a Unix build, for a variable that `getenv` does not find, `getEnv`
builds a `string` from the null pointer: the run has no defined meaning, and no
"absent" result is returned. -/
theorem getEnv_unset_undefined (b : Build) (sys : Sys) (var : String)
    (hb : (b.linux || b.apple.getD 0 != 0) = true) (hunset : sys.getenv (c_str var) = none) :
    getEnv b sys var = ⟨[.getEnv var, .getenv (c_str var)], .undefined⟩ := by
  rw [getEnv_unix b sys var hb, hunset]

/-- C3, for the variable `DOES_NOT_EXIST_XYZ` of the specification. -/
theorem getEnv_unset_undefined_witness :
    (linuxBuild.linux || linuxBuild.apple.getD 0 != 0) = true ∧
    workingSys.getenv (c_str "DOES_NOT_EXIST_XYZ") = none ∧
    getEnv linuxBuild workingSys "DOES_NOT_EXIST_XYZ" =
      ⟨[.getEnv "DOES_NOT_EXIST_XYZ", .getenv (c_str "DOES_NOT_EXIST_XYZ")], .undefined⟩ :=
  ⟨by decide, by decide,
    getEnv_unset_undefined linuxBuild workingSys "DOES_NOT_EXIST_XYZ" (by decide) (by decide)⟩

/-- On a Windows build the unset variable leaves the stack buffer `env` of
`getEnv` unwritten, and `lpwstrToString` reads it. -/
theorem getEnv_unset_windows :
    workingSys.GetEnvironmentVariable
      (some ("DOES_NOT_EXIST_XYZ".data.map Char.toNat)) = none ∧
    (getEnv windowsBuild workingSys "DOES_NOT_EXIST_XYZ").outcome = .undefined := by
  decide

/-- C6: in every build in which `getEnv` exists, `getHomeDir` is the call of
`getEnv` for `USERPROFILE` when `getSystemType` reports `WindowsNT` and for
`HOME` when it reports anything else, and that call is the only entry into
`getEnv` it makes. -/
theorem getHomeDir_variable (b : Build) (sys : Sys)
    (hb : (getHomeDir b sys).outcome ≠ .noBuild) :
    getHomeDir b sys =
      getEnv b sys (if getSystemType b = SystemType.WindowsNT then "USERPROFILE" else "HOME") ∧
    lookups (getHomeDir b sys).trace =
      [if getSystemType b = SystemType.WindowsNT then "USERPROFILE" else "HOME"] := by
  have h : getHomeDir b sys =
      getEnv b sys (if getSystemType b = SystemType.WindowsNT then "USERPROFILE" else "HOME") := by
    unfold getHomeDir
    split_ifs <;> rfl
  refine ⟨h, ?_⟩
  rw [h] at hb ⊢
  exact lookups_getEnv b sys _ hb

/-- C6, on a Linux build (`HOME`) and on a Windows build (`USERPROFILE`). -/
theorem getHomeDir_variable_witness :
    ((getHomeDir linuxBuild workingSys).outcome ≠ .noBuild ∧
      getHomeDir linuxBuild workingSys = getEnv linuxBuild workingSys "HOME" ∧
      lookups (getHomeDir linuxBuild workingSys).trace = ["HOME"]) ∧
    ((getHomeDir windowsBuild workingSys).outcome ≠ .noBuild ∧
      getHomeDir windowsBuild workingSys = getEnv windowsBuild workingSys "USERPROFILE" ∧
      lookups (getHomeDir windowsBuild workingSys).trace = ["USERPROFILE"]) :=
  ⟨⟨by decide, getHomeDir_variable linuxBuild workingSys (by decide)⟩,
    ⟨by decide, getHomeDir_variable windowsBuild workingSys (by decide)⟩⟩

/-! ## Text conversion -/

/-- C7: for every code page, the conversion of the empty text, in either
direction, returns a buffer that holds the terminator only and calls no
platform routine; `stringToLPWSTR` of the empty string is that buffer and
`lpwstrToString` of an empty wide string is the empty string. -/
theorem empty_text_conversions (sys : Sys) (codePage : Int) (rest : Buf) :
    winUtils.CodePageToUnicode sys (some "") codePage = ⟨[], .ret (some [some 0])⟩ ∧
    winUtils.UnicodeToCodePage sys (some (some 0 :: rest)) codePage =
      ⟨[], .ret (some [some 0])⟩ ∧
    winUtils.stringToLPWSTR sys "" = ⟨[], .ret (some [some 0])⟩ ∧
    winUtils.lpwstrToString sys (some (some 0 :: rest)) = ⟨[], .ret ""⟩ :=
  ⟨rfl, rfl, rfl, rfl⟩

/-- Outcome of `CodePageToUnicode` on a text whose length is not 0 as an `int`,
when the platform routine reports a failure. -/
theorem CodePageToUnicode_failure (sys : Sys) (src : String) (codePage : Int)
    (hlen : toInt32 src.length ≠ 0) (hfail : mbFails sys codePage src) :
    (winUtils.CodePageToUnicode sys (some src) codePage).outcome = .ret none := by
  unfold winUtils.CodePageToUnicode
  simp only [bind_eq, bind_emit, pure_eq, if_neg hlen]
  split_ifs with h1 h2
  · rfl
  · rfl
  · exfalso
    rcases hfail with h | h
    · exact h1 h
    · exact h2 h

/-- Outcome of `UnicodeToCodePage` on a wide text whose length is not 0 as an
`int`, when the platform routine reports a failure. -/
theorem UnicodeToCodePage_failure (sys : Sys) (wsrc : Buf) (ws : List Nat) (codePage : Int)
    (hread : readCStr wsrc = some ws) (hlen : toInt32 ws.length ≠ 0)
    (hfail : wcFails sys codePage ws) :
    (winUtils.UnicodeToCodePage sys (some wsrc) codePage).outcome = .ret none := by
  unfold winUtils.UnicodeToCodePage
  simp only [hread, bind_eq, bind_emit, pure_eq, if_neg hlen]
  split_ifs with h1 h2
  · rfl
  · rfl
  · exfalso
    rcases hfail with h | h
    · exact h1 h
    · exact h2 h

theorem toInt32_length_ne_zero (n : Nat) (h0 : n ≠ 0) (h : n < 2 ^ 31) : toInt32 n ≠ 0 := by
  unfold toInt32
  have h1 : n % 2 ^ 32 = n := Nat.mod_eq_of_lt (by omega)
  rw [h1, if_pos h]
  exact_mod_cast h0

/-- C8, as the code has it: for every system and code page, each converter on
its own returns the null pointer, the value it returns for a null input, when
the platform routine reports a failure for a text that is not empty:
`CodePageToUnicode` when `MultiByteToWideChar` fails, `UnicodeToCodePage` when
`WideCharToMultiByte` fails, and `stringToLPWSTR` returns the null pointer of
`CodePageToUnicode` to its caller. -/
theorem conversion_failure_is_null (sys : Sys) (codePage : Int) :
    ((∀ src : String, src.length ≠ 0 → src.length < 2 ^ 31 → mbFails sys codePage src →
        (winUtils.CodePageToUnicode sys (some src) codePage).outcome = .ret none) ∧
      (winUtils.CodePageToUnicode sys none codePage).outcome = .ret none) ∧
    ((∀ (wsrc : Buf) (ws : List Nat), readCStr wsrc = some ws → ws.length ≠ 0 →
        ws.length < 2 ^ 31 → wcFails sys codePage ws →
        (winUtils.UnicodeToCodePage sys (some wsrc) codePage).outcome = .ret none) ∧
      (winUtils.UnicodeToCodePage sys none codePage).outcome = .ret none) ∧
    (∀ text : String, (c_str text).length ≠ 0 → (c_str text).length < 2 ^ 31 →
      mbFails sys 1252 (c_str text) →
      (winUtils.stringToLPWSTR sys text).outcome = .ret none) :=
  ⟨⟨fun src hsrc hsrcLen hfail =>
      CodePageToUnicode_failure sys src codePage (toInt32_length_ne_zero _ hsrc hsrcLen) hfail,
      rfl⟩,
    ⟨fun wsrc ws hread hws hwsLen hwfail =>
      UnicodeToCodePage_failure sys wsrc ws codePage hread
        (toInt32_length_ne_zero _ hws hwsLen) hwfail,
      rfl⟩,
    fun text htext htextLen htfail =>
      CodePageToUnicode_failure sys (c_str text) 1252
        (toInt32_length_ne_zero _ htext htextLen) htfail⟩

/-- C8, for the text `A`: on a system in which `MultiByteToWideChar` alone
fails, and on a system in which `WideCharToMultiByte` alone fails (on the
conversion, after a size query that succeeds). -/
theorem conversion_failure_is_null_witness :
    (mbFails mbOnlySys 65001 "A" ∧ ¬ wcFails mbOnlySys 65001 [65] ∧
      (winUtils.CodePageToUnicode mbOnlySys (some "A") 65001).outcome = .ret none) ∧
    (wcFails wcOnlySys 1252 [65] ∧ ¬ mbFails wcOnlySys 1252 "A" ∧
      (winUtils.UnicodeToCodePage wcOnlySys (some [some 65, some 0]) 1252).outcome
        = .ret none) ∧
    (mbFails mbOnlySys 1252 (c_str "A") ∧
      (winUtils.stringToLPWSTR mbOnlySys "A").outcome = .ret none) :=
  ⟨⟨Or.inl rfl, by unfold wcFails; decide,
      (conversion_failure_is_null mbOnlySys 65001).1.1 "A" (by decide) (by decide)
        (Or.inl rfl)⟩,
    ⟨Or.inr rfl, by unfold mbFails; decide,
      (conversion_failure_is_null wcOnlySys 1252).2.1.1 [some 65, some 0] [65] rfl
        (by decide) (by decide) (Or.inr rfl)⟩,
    ⟨Or.inl rfl,
      (conversion_failure_is_null mbOnlySys 1252).2.2 "A" (by decide) (by decide)
        (Or.inl rfl)⟩⟩

/-- C8 as stated fails: the routine reports a failure for the text `A`, the
result of `CodePageToUnicode` is the null pointer it also returns for a null
input, and `lpwstrToString` builds a `string` from the null pointer it
receives. -/
theorem conversion_failure_returns_null :
    (failingSys.MultiByteToWideChar 65001 "A" 1 0).1 = 0 ∧
    winUtils.CodePageToUnicode failingSys (some "A") 65001 =
      ⟨[.MultiByteToWideChar 65001 "A" 1 0], .ret none⟩ ∧
    winUtils.CodePageToUnicode failingSys none 65001 = ⟨[], .ret none⟩ ∧
    winUtils.UnicodeToCodePage failingSys (some [some 65, some 0]) 1252 =
      ⟨[.WideCharToMultiByte 1252 [65] 1 0], .ret none⟩ ∧
    winUtils.lpwstrToString failingSys (some [some 65, some 0]) =
      ⟨[.WideCharToMultiByte 1252 [65] 1 0], .undefined⟩ := by
  decide

/-! ## The opener and the command line -/

/-- In a build in which the file compiles, `getSystemType` reports `Linux`,
`MacOSX` or `WindowsNT`: neither `Unknown` nor `FreeBSD`. -/
theorem getSystemType_of_compiles (b : Build) (hb : b.compiles = true) :
    getSystemType b = SystemType.Linux ∨ getSystemType b = SystemType.MacOSX ∨
      getSystemType b = SystemType.WindowsNT := by
  obtain ⟨linux, apple, win32, win64⟩ := b
  cases linux <;> cases win32 <;> cases win64 <;> cases apple <;>
    simp_all [Build.compiles, getSystemType]

/-- The only build in which `getSystemType` reports `Unknown` is the one with no
platform symbol defined. -/
theorem bare_of_unknown (b : Build) (hos : getSystemType b = SystemType.Unknown) :
    b = bareBuild := by
  obtain ⟨linux, apple, win32, win64⟩ := b
  cases linux <;> cases win32 <;> cases win64 <;> cases apple <;>
    simp_all [getSystemType, bareBuild]

/-- Where `getSystemType` reports `Unknown` the file does not compile: there is
no `xdgOpen`, as there is no `getEnv`, no `execProc` and no `main`. The last
branch of `xdgOpen` (lines 336-339) is reached in no build. -/
theorem xdgOpen_unknown_noBuild (b : Build) (sys : Sys) (file : String) (argv : List String)
    (hos : getSystemType b = SystemType.Unknown) :
    b.compiles = false ∧ xdgOpen b sys file = ⟨[], .noBuild⟩ ∧
    getEnv b sys file = ⟨[], .noBuild⟩ ∧ execProc b sys file argv true = ⟨[], .noBuild⟩ ∧
    main b sys argv = ⟨[], .noBuild⟩ := by
  rw [bare_of_unknown b hos]
  exact ⟨rfl, rfl, rfl, rfl, rfl⟩

/-- In every build in which the file compiles, `xdgOpen` enters `execProc`
exactly once. -/
theorem xdgOpen_launches_once (b : Build) (sys : Sys) (file : String)
    (hb : b.compiles = true) :
    (launches (xdgOpen b sys file).trace).length = 1 := by
  have hx : (b.linux || b.apple.isSome || b.win32) = true := by
    obtain ⟨linux, apple, win32, win64⟩ := b
    cases linux <;> cases win32 <;> simp_all [Build.compiles]
  unfold xdgOpen
  rw [if_pos hb]
  rcases getSystemType_of_compiles b hb with h | h | h <;>
    simp [h, launches_execProc b sys _ _ _ hx]

theorem commandLine_eq (program : String) (args : List String) :
    commandLine program args = program ++ String.join (args.map (fun arg => " " ++ arg)) := by
  unfold commandLine
  induction args generalizing program with
  | nil => simp [String.join]
  | cons a args ih =>
    rw [List.foldl_cons, ih]
    apply String.ext
    simp [String.data_join]

/-- In the Windows branch everything behind the entry into `execProc` depends on
the arguments through the command line only. -/
theorem execProc_windows_of_commandLine (sys : Sys) (program : String)
    (argsA argsB : List String) (console : Bool)
    (h : commandLine program argsA = commandLine program argsB) :
    (execProc windowsBuild sys program argsA console).trace.drop 1 =
      (execProc windowsBuild sys program argsB console).trace.drop 1 ∧
    (execProc windowsBuild sys program argsA console).outcome =
      (execProc windowsBuild sys program argsB console).outcome := by
  have hu : ¬ ((windowsBuild.linux || windowsBuild.apple.isSome) = true) := by decide
  have hw : windowsBuild.win32 = true := rfl
  unfold execProc
  rw [if_neg hu, if_pos hw, if_neg hu, if_pos hw]
  simp only [bind_eq, bind_emit, h, List.drop_succ_cons, List.drop_zero, and_self]

/-- C10: the command line of the Windows branch is the program name followed
by every argument, each behind one space, in order and unchanged; two
different argument vectors can give the same command line, and `execProc` then
makes the same platform calls for both. -/
theorem commandLine_joins_not_injective (program : String) :
    (∀ args : List String,
      commandLine program args =
        program ++ String.join (args.map (fun arg => " " ++ arg))) ∧
    (["a b"] ≠ ["a", "b"] ∧ commandLine program ["a b"] = commandLine program ["a", "b"]) ∧
    (["", "x"] ≠ [" x"] ∧ commandLine program ["", "x"] = commandLine program [" x"]) ∧
    (∀ (sys : Sys) (console : Bool),
      (execProc windowsBuild sys program ["a b"] console).trace.drop 1 =
        (execProc windowsBuild sys program ["a", "b"] console).trace.drop 1 ∧
      (execProc windowsBuild sys program ["a b"] console).outcome =
        (execProc windowsBuild sys program ["a", "b"] console).outcome) := by
  have h1 : commandLine program ["a b"] = commandLine program ["a", "b"] := by
    rw [commandLine_eq, commandLine_eq]
    apply congrArg
    decide
  have h2 : commandLine program ["", "x"] = commandLine program [" x"] := by
    rw [commandLine_eq, commandLine_eq]
    apply congrArg
    decide
  exact ⟨commandLine_eq program, ⟨by decide, h1⟩, ⟨by decide, h2⟩,
    fun sys console => execProc_windows_of_commandLine sys program _ _ console h1⟩

end Loader
